import Mathlib

/-!
Verification development for the BSPLib superstep engine
(`src/bsp/include/bsp/bspClass.h`).

The BSP runtime state is embedded shallowly: pointers become `Nat`
addresses, the byte memory shared by all worker threads becomes a
function `Nat → Nat`, the per-process member vectors of the `BSP`
singleton become functions from the process id, and each member
function of `BSP` becomes a state-passing Lean function.  Fallible
code paths (out-of-bounds vector indexing, missing registration)
return `Option`.
-/

/-- Memory is a byte-addressed store; addresses and byte values are `Nat`. -/
def Mem : Type := Nat → Nat

/-- Read `n` consecutive bytes starting at `addr`. -/
def readBytes (m : Mem) (addr n : Nat) : List Nat :=
  (List.range n).map fun i => m (addr + i)

/-- Write the byte list `bs` at consecutive addresses starting at `addr`. -/
def writeBytes (m : Mem) (addr : Nat) (bs : List Nat) : Mem :=
  fun a => if addr ≤ a ∧ a < addr + bs.length then bs.getD (a - addr) 0 else m a

/-- Pointwise update of a per-process table. -/
def fupd {α : Type} (f : Nat → α) (i : Nat) (v : α) : Nat → α :=
  fun j => if j = i then v else f j

/-- Pointwise update of a two-index (from, to) table. -/
def fupd2 {α : Type} (f : Nat → Nat → α) (i j : Nat) (v : α) : Nat → Nat → α :=
  fun a b => if a = i ∧ b = j then v else f a b

/-- Modelled from the spec: `bsp/stackAllocator.h` is not under `src/`.
Per §4.1 the stack arena is an append-only byte buffer supporting
allocate-with-copy, extract-by-offset, size, bulk-merge and clear. -/
structure StackAllocator where
  data : List Nat
deriving DecidableEq

/-- Modelled from the spec: `alloc(n, src_bytes) -> offset` appends the bytes
and returns the offset at which they were placed (§4.1). -/
def StackAllocator.Alloc (a : StackAllocator) (bytes : List Nat) : Nat × StackAllocator :=
  (a.data.length, ⟨a.data ++ bytes⟩)

/-- Modelled from the spec: `extract(offset, n, dst_bytes)` copies `n` bytes
starting at `offset` (§4.1). -/
def StackAllocator.Extract (a : StackAllocator) (loc n : Nat) : List Nat :=
  (a.data.drop loc).take n

/-- Modelled from the spec: `size()` is the current high-water mark (§4.1). -/
def StackAllocator.Size (a : StackAllocator) : Nat :=
  a.data.length

/-- Modelled from the spec: `merge(other)` appends the contents of `other`;
offsets in the merged region are shifted by `self.size()` at merge time (§4.1). -/
def StackAllocator.Merge (a b : StackAllocator) : StackAllocator :=
  ⟨a.data ++ b.data⟩

/-- Modelled from the spec: `clear()` resets the size to zero (§4.1). -/
def StackAllocator.Clear (_ : StackAllocator) : StackAllocator :=
  ⟨[]⟩

/-- Modelled from the spec: `bsp/requests.h` is not under `src/`.  Field names
follow their uses in `bspClass.h`; `RegisterInfo` holds the registered size and
the global register index (§3, §4.4). -/
structure RegisterInfo where
  size : Nat
  registerCount : Nat
deriving DecidableEq

/-- Modelled from the spec: a Put request records the arena offset of the staged
source bytes, the destination address and the byte count (§3). -/
structure PutRequest where
  bufferLocation : Nat
  destination : Nat
  size : Nat
deriving DecidableEq

/-- Modelled from the spec: a Get request records the local destination address,
the remote source address and the byte count (§3). -/
structure GetRequest where
  destination : Nat
  source : Nat
  size : Nat
deriving DecidableEq

/-- Modelled from the spec: a Send request records payload offset and size and
tag offset and size, relative to the staging arena (§3). -/
structure SendRequest where
  bufferLocation : Nat
  bufferSize : Nat
  tagLocation : Nat
  tagSize : Nat
deriving DecidableEq

/-- Modelled from the spec: a PushReg request records the pushed address and its
register info (§3, §4.4). -/
structure PushRequest where
  pushRegister : Nat
  registerInfo : RegisterInfo
deriving DecidableEq

/-- Modelled from the spec: a PopReg request records the popped address (§3). -/
structure PopRequest where
  popRegister : Nat
deriving DecidableEq

/-- State of the `BSP` singleton.  The two-index tables mirror
`BspInternal::CommunicationQueues`, indexed `[from][to]` so that
`GetQueueFromMe(to, me)` is `table me to` and `GetQueueToMe(from, me)` is
`table from me` (spec §4.3). -/
structure BSPState where
  procCount : Nat
  mem : Mem
  putBufferStacks : Nat → StackAllocator
  putRequests : Nat → Nat → List PutRequest
  getRequests : Nat → Nat → List GetRequest
  tmpSendRequests : Nat → Nat → List SendRequest
  tmpSendBuffers : Nat → Nat → StackAllocator
  sendBuffers : Nat → StackAllocator
  sendRequests : Nat → List SendRequest
  sendReceivedIndex : Nat → Nat
  registers : Nat → Nat → Option RegisterInfo
  registerCount : Nat → Nat
  threadRegisterLocation : Nat → List Nat
  pushRequests : Nat → List PushRequest
  popRequests : Nat → List PopRequest
  newTagSize : Nat → Nat
  tagSize : Nat
  ended : Bool
  abortFlag : Bool
  entry : Option Nat
  mainPid : Nat

/-- The all-empty state after `Begin(P)`'s allocations. -/
def emptyState (P : Nat) : BSPState where
  procCount := P
  mem := fun _ => 0
  putBufferStacks := fun _ => ⟨[]⟩
  putRequests := fun _ _ => []
  getRequests := fun _ _ => []
  tmpSendRequests := fun _ _ => []
  tmpSendBuffers := fun _ _ => ⟨[]⟩
  sendBuffers := fun _ => ⟨[]⟩
  sendRequests := fun _ => []
  sendReceivedIndex := fun _ => 0
  registers := fun _ _ => none
  registerCount := fun _ => 0
  threadRegisterLocation := fun _ => []
  pushRequests := fun _ => []
  popRequests := fun _ => []
  newTagSize := fun _ => 0
  tagSize := 0
  ended := false
  abortFlag := false
  entry := none
  mainPid := 0

/-- Value of `(size_t)-1` used by `BSP::GetTag` as the empty-queue sentinel. -/
def SIZE_MAX : Nat := 2 ^ 64 - 1

/-- `BSP::QSize`: message count and accumulated payload bytes of
`mSendRequests[ProcId()]`. -/
def QSize (s : BSPState) (pid : Nat) : Nat × Nat :=
  ((s.sendRequests pid).length, ((s.sendRequests pid).map SendRequest.bufferSize).sum)

/-- `BSP::Init`: records the entry function, zeroes the tag size, warns when
`!mEnded && !mAbort`, and resets the calling thread's pid to 0.  The `Bool`
result is whether the warning was printed. -/
def Init (s : BSPState) (entry : Nat) : BSPState × Bool :=
  ({ s with entry := some entry, tagSize := 0, mainPid := 0 },
   !s.ended && !s.abortFlag)

/-- `BSP::Send` issued by `tpid` towards `pid`: stages payload then tag bytes in
`mTmpSendBuffers.GetQueueFromMe(pid, tpid)` and appends the request to
`mTmpSendRequests.GetQueueFromMe(pid, tpid)`. -/
def Send (s : BSPState) (tpid pid : Nat) (tag payload : Nat) (size : Nat) : BSPState :=
  let srcBuff := readBytes s.mem payload size
  let tagBuff := readBytes s.mem tag s.tagSize
  let tmpSendBuffer := s.tmpSendBuffers tpid pid
  let allocPayload := tmpSendBuffer.Alloc srcBuff
  let allocTag := allocPayload.2.Alloc tagBuff
  { s with
    tmpSendBuffers := fupd2 s.tmpSendBuffers tpid pid allocTag.2
    tmpSendRequests := fupd2 s.tmpSendRequests tpid pid
      (s.tmpSendRequests tpid pid ++ [⟨allocPayload.1, size, allocTag.1, s.tagSize⟩]) }

/-- `BSP::Move`: when the delivered queue is empty, return unchanged; otherwise
read entry `mSendReceivedIndex[pid]` (post-incrementing the index) and copy
`min(max_copy_size_in, bufferSize)` payload bytes to `payload`.  The C++
indexing `mSendRequests[pid][mSendReceivedIndex[pid]++]` is unchecked; an
out-of-range index is undefined behaviour, modelled as `none`. -/
def Move (s : BSPState) (pid : Nat) (payload maxCopySizeIn : Nat) : Option BSPState :=
  if (s.sendRequests pid).isEmpty then
    some s
  else
    match (s.sendRequests pid)[s.sendReceivedIndex pid]? with
    | none => none
    | some request =>
      let copySize := min maxCopySizeIn request.bufferSize
      some { s with
        sendReceivedIndex := fupd s.sendReceivedIndex pid (s.sendReceivedIndex pid + 1)
        mem := writeBytes s.mem payload
          ((s.sendBuffers pid).Extract request.bufferLocation copySize) }

/-- `BSP::SetTagsize`: returns the current `mTagSize` through the in/out
parameter and records the proposed size in `mNewTagSize[ProcId()]`. -/
def SetTagsize (s : BSPState) (pid : Nat) (size : Nat) : Nat × BSPState :=
  (s.tagSize, { s with newTagSize := fupd s.newTagSize pid size })

/-- `BSP::GetTag`: status starts at `(size_t)-1` and is overwritten with the
payload size of entry `mSendReceivedIndex[pid]` when the delivered queue is
non-empty and that index is in range; the entry's tag bytes are then extracted
from `mSendBuffers[pid]`. -/
def GetTag (s : BSPState) (pid : Nat) : Nat × Option (List Nat) :=
  match (s.sendRequests pid)[s.sendReceivedIndex pid]? with
  | some sendRequest =>
    (sendRequest.bufferSize,
     some ((s.sendBuffers pid).Extract sendRequest.tagLocation sendRequest.tagSize))
  | none => (SIZE_MAX, none)

/-- `BSP::PushReg`: appends a push request carrying `mRegisterCount[pid]++`. -/
def PushReg (s : BSPState) (pid : Nat) (ident size : Nat) : BSPState :=
  { s with
    pushRequests := fupd s.pushRequests pid
      (s.pushRequests pid ++ [⟨ident, ⟨size, s.registerCount pid⟩⟩])
    registerCount := fupd s.registerCount pid (s.registerCount pid + 1) }

/-- `BSP::PopReg`: appends a pop request for `ident`. -/
def PopReg (s : BSPState) (pid : Nat) (ident : Nat) : BSPState :=
  { s with
    popRequests := fupd s.popRequests pid (s.popRequests pid ++ [⟨ident⟩]) }

/-- `BSP::Put` issued by `tpid` towards `pid`: resolves `dst` through the
issuer's register map and the target's `mThreadRegisterLocation`, stages the
source bytes in `mPutBufferStacks[tpid]` and enqueues the request in
`mPutRequests.GetQueueFromMe(pid, tpid)`.  A missing registration is an
assertion failure in the C++, modelled as `none`. -/
def Put (s : BSPState) (tpid pid : Nat) (src dst : Nat) (offset nbytes : Nat) :
    Option BSPState :=
  match s.registers tpid dst with
  | none => none
  | some info =>
    match (s.threadRegisterLocation pid)[info.registerCount]? with
    | none => none
    | some dstBuff =>
      let alloc := (s.putBufferStacks tpid).Alloc (readBytes s.mem src nbytes)
      some { s with
        putBufferStacks := fupd s.putBufferStacks tpid alloc.2
        putRequests := fupd2 s.putRequests tpid pid
          (s.putRequests tpid pid ++ [⟨alloc.1, dstBuff + offset, nbytes⟩]) }

/-- `BSP::Get` issued by `tpid` towards `pid`: resolves `src` through the
issuer's register map and the target's `mThreadRegisterLocation` and enqueues
the request in `mGetRequests.GetQueueFromMe(pid, tpid)`. -/
def Get (s : BSPState) (tpid pid : Nat) (src : Nat) (offset : Nat) (dst nbytes : Nat) :
    Option BSPState :=
  match s.registers tpid src with
  | none => none
  | some info =>
    match (s.threadRegisterLocation pid)[info.registerCount]? with
    | none => none
    | some srcBuff =>
      some { s with
        getRequests := fupd2 s.getRequests tpid pid
          (s.getRequests tpid pid ++ [⟨dst, srcBuff + offset, nbytes⟩]) }

/-- Body of the reverse iteration in `BSP::ProcessPutRequests`: each request
extracts its staged bytes from the owner's put arena and writes them at the
recorded destination address; the queue is traversed from `rbegin()` to
`rend()`. -/
def applyPutQueue (arena : StackAllocator) (q : List PutRequest) (m : Mem) : Mem :=
  q.reverse.foldl
    (fun mm putRequest =>
      writeBytes mm putRequest.destination
        (arena.Extract putRequest.bufferLocation putRequest.size)) m

/-- Loop body of `BSP::ProcessPutRequests`: when the queue
`mPutRequests.GetQueueToMe(owner, pid)` is non-empty, apply it in reverse
insertion order and clear it. -/
def putStep (pid : Nat) (t : BSPState) (owner : Nat) : BSPState :=
  let putQueue := t.putRequests owner pid
  if putQueue.isEmpty then t
  else
    { t with
      mem := applyPutQueue (t.putBufferStacks owner) putQueue t.mem
      putRequests := fupd2 t.putRequests owner pid [] }

/-- `BSP::ProcessPutRequests(pid)`: drain the inbound put queues for
`owner = 0..P-1`. -/
def ProcessPutRequests (s : BSPState) (pid : Nat) : BSPState :=
  (List.range s.procCount).foldl (putStep pid) s

/-- Offset shift applied to a staged send request when its staging arena is
merged at base offset `off` (`sendRequest.bufferLocation += offset` and
`sendRequest.tagLocation += offset` in `BSP::ProcessSendRequests`). -/
def shiftReq (off : Nat) (r : SendRequest) : SendRequest :=
  { r with bufferLocation := r.bufferLocation + off, tagLocation := r.tagLocation + off }

/-- Loop body of `BSP::ProcessSendRequests`: skip empty tmp queues; otherwise
shift the requests' offsets by the running `offset`, append the requests to
`mSendRequests[pid]`, advance `offset` by the tmp buffer's size, merge the tmp
buffer into `mSendBuffers[pid]` and clear both tmp cells. -/
def sendStep (pid : Nat) (acc : BSPState × Nat) (owner : Nat) : BSPState × Nat :=
  let t := acc.1
  let offset := acc.2
  let tmpQueue := t.tmpSendRequests owner pid
  if tmpQueue.isEmpty then acc
  else
    let shifted := tmpQueue.map (shiftReq offset)
    let tmpBuffer := t.tmpSendBuffers owner pid
    ({ t with
        sendRequests := fupd t.sendRequests pid (t.sendRequests pid ++ shifted)
        tmpSendRequests := fupd2 t.tmpSendRequests owner pid []
        sendBuffers := fupd t.sendBuffers pid ((t.sendBuffers pid).Merge tmpBuffer)
        tmpSendBuffers := fupd2 t.tmpSendBuffers owner pid ⟨[]⟩ },
     offset + tmpBuffer.Size)

/-- State component of the non-empty branch of `sendStep`: the receiver `pid`
adopts owner `owner`'s staged requests (shifted by `off`) and staged bytes, and
both tmp cells are cleared. -/
def sendApply (pid owner : Nat) (t : BSPState) (off : Nat) : BSPState :=
  { t with
    sendRequests := fupd t.sendRequests pid
      (t.sendRequests pid ++ (t.tmpSendRequests owner pid).map (shiftReq off))
    tmpSendRequests := fupd2 t.tmpSendRequests owner pid []
    sendBuffers := fupd t.sendBuffers pid
      ((t.sendBuffers pid).Merge (t.tmpSendBuffers owner pid))
    tmpSendBuffers := fupd2 t.tmpSendBuffers owner pid ⟨[]⟩ }

/-- Head of `BSP::ProcessSendRequests`: clear the delivered queue, reset the
consumed index and clear the receive arena. -/
def clearDelivered (s : BSPState) (pid : Nat) : BSPState :=
  { s with
    sendRequests := fupd s.sendRequests pid []
    sendReceivedIndex := fupd s.sendReceivedIndex pid 0
    sendBuffers := fupd s.sendBuffers pid ((s.sendBuffers pid).Clear) }

/-- `BSP::ProcessSendRequests(pid)`: clears the delivered queue, the consumed
index and the receive arena, then drains `mTmpSendRequests.GetQueueToMe(owner,
pid)` for `owner = 0..P-1`. -/
def ProcessSendRequests (s : BSPState) (pid : Nat) : BSPState :=
  ((List.range s.procCount).foldl (sendStep pid) (clearDelivered s pid, 0)).1

/-- Erasure fold of `BSP::ProcessPopRequests`: each pop request removes its
address from the process's register map (`std::map::erase`). -/
def eraseRegs (reg : Nat → Option RegisterInfo) (l : List PopRequest) :
    Nat → Option RegisterInfo :=
  l.foldl (fun f popRequest => fun a => if a = popRequest.popRegister then none else f a) reg

/-- `BSP::ProcessPopRequests(pid)`: when the pop queue is non-empty, erase each
popped address from `mRegisters[pid]` and clear the queue;
`mThreadRegisterLocation` is untouched. -/
def ProcessPopRequests (s : BSPState) (pid : Nat) : BSPState :=
  if (s.popRequests pid).isEmpty then s
  else
    { s with
      registers := fupd s.registers pid (eraseRegs (s.registers pid) (s.popRequests pid))
      popRequests := fupd s.popRequests pid [] }

/-- Loop body of `BSP::ProcessPushRequests`: insert the pushed address into
`mRegisters[pid]` and append it to `mThreadRegisterLocation[pid]`. -/
def pushStep (pid : Nat) (t : BSPState) (pushRequest : PushRequest) : BSPState :=
  { t with
    registers := fupd t.registers pid
      (fun a => if a = pushRequest.pushRegister then some pushRequest.registerInfo
                else t.registers pid a)
    threadRegisterLocation := fupd t.threadRegisterLocation pid
      (t.threadRegisterLocation pid ++ [pushRequest.pushRegister]) }

/-- `BSP::ProcessPushRequests(pid)` drains the push queue through `pushStep`
and clears it. -/
def ProcessPushRequests (s : BSPState) (pid : Nat) : BSPState :=
  if (s.pushRequests pid).isEmpty then s
  else
    let t := (s.pushRequests pid).foldl (pushStep pid) s
    { t with pushRequests := fupd t.pushRequests pid [] }

/-- Body of the reverse iteration in `BSP::ProcessGetRequests`: stage the
requested source bytes in `mPutBufferStacks[pid]` and enqueue a synthesized
Put in `mPutRequests.GetQueueFromMe(owner, pid)`. -/
def getReqStep (pid owner : Nat) (u : BSPState) (request : GetRequest) : BSPState :=
  let alloc := (u.putBufferStacks pid).Alloc (readBytes u.mem request.source request.size)
  { u with
    putBufferStacks := fupd u.putBufferStacks pid alloc.2
    putRequests := fupd2 u.putRequests pid owner
      (u.putRequests pid owner ++ [⟨alloc.1, request.destination, request.size⟩]) }

/-- Per-owner part of `BSP::ProcessGetRequests`: traverse the inbound get
queue in reverse and clear it. -/
def getStep (pid : Nat) (t : BSPState) (owner : Nat) : BSPState :=
  let t2 := (t.getRequests owner pid).reverse.foldl (getReqStep pid owner) t
  { t2 with getRequests := fupd2 t2.getRequests owner pid [] }

/-- `BSP::ProcessGetRequests(pid)`: drain the inbound get queues for
`owner = 0..P-1`. -/
def ProcessGetRequests (s : BSPState) (pid : Nat) : BSPState :=
  (List.range s.procCount).foldl (getStep pid) s

/-- Tag-size adoption at the head of `BSP::Sync`: only pid 0's proposal is
consulted, and only when it differs from the current size. -/
def syncTagUpdate (s : BSPState) : BSPState :=
  if s.newTagSize 0 ≠ s.tagSize then { s with tagSize := s.newTagSize 0 } else s

/-- Phase A of `BSP::Sync` after the tag-size adoption: every process converts
its inbound Gets to Puts. -/
def syncPhaseA (s : BSPState) : BSPState :=
  (List.range s.procCount).foldl (fun t p => ProcessGetRequests t p) s

/-- Phase B of `BSP::Sync`: every process applies its pops, materializes its
delivered sends and applies its inbound Puts. -/
def syncPhaseB (s : BSPState) : BSPState :=
  (List.range s.procCount).foldl
    (fun t p => ProcessPutRequests (ProcessSendRequests (ProcessPopRequests t p) p) p) s

/-- `mPutBufferStacks[pid].Clear()` executed by `pid` in phase C of Sync. -/
def clearArenaStep (t : BSPState) (p : Nat) : BSPState :=
  { t with putBufferStacks := fupd t.putBufferStacks p ((t.putBufferStacks p).Clear) }

/-- Phase C of `BSP::Sync`: every process clears its put arena and applies its
pushes. -/
def syncPhaseC (s : BSPState) : BSPState :=
  (List.range s.procCount).foldl (fun t p => ProcessPushRequests (clearArenaStep t p) p) s

/-- `BSP::Sync` for the whole process group, phases sequenced as in the source:
after the first barrier pid 0 adopts the proposed tag size and phase A runs;
the second barrier separates phase A from phase B, and the third separates
phase B from phase C. -/
def SyncAll (s : BSPState) : BSPState :=
  syncPhaseC (syncPhaseB (syncPhaseA (syncTagUpdate s)))

/-- Direct description of the delivered-send materialization drained by
`BSP::ProcessSendRequests`: walk the owners in order, skip owners with an empty
tmp queue, and otherwise emit that owner's requests (in issuance order, offsets
shifted by the running merge base) together with that owner's staged bytes. -/
def deliverOwners (s : BSPState) (pid : Nat) : List Nat → Nat → List SendRequest × List Nat
  | [], _ => ([], [])
  | owner :: rest, off =>
    let q := s.tmpSendRequests owner pid
    if q.isEmpty then deliverOwners s pid rest off
    else
      let p := deliverOwners s pid rest (off + (s.tmpSendBuffers owner pid).Size)
      (q.map (shiftReq off) ++ p.1, (s.tmpSendBuffers owner pid).data ++ p.2)

/-- Follows the claim's words (C4, spec §6 `QSize`): the "outbound-Send queue"
of a process holds the Sends it has issued during the current superstep,
staged in `mTmpSendRequests.GetQueueFromMe(target, pid)`. -/
def outboundSendCount (s : BSPState) (pid : Nat) : Nat :=
  ((List.range s.procCount).map fun target => (s.tmpSendRequests pid target).length).sum

/-- Follows the claim's words (C4): total payload bytes of the outbound-Send
queue. -/
def outboundSendBytes (s : BSPState) (pid : Nat) : Nat :=
  ((List.range s.procCount).map fun target =>
    ((s.tmpSendRequests pid target).map SendRequest.bufferSize).sum).sum

/-- Follows the claim's words (C9): the previous Begin/End cycle ended cleanly
when `End` ran and marked the run ended. -/
def prevRunEndedCleanly (s : BSPState) : Prop :=
  s.ended = true

/-- The operations appearing in the body of `BSP::Sync`, in program order. -/
inductive SyncEvent where
  | barrier : SyncEvent
  | tagUpdate : SyncEvent
  | processGets : SyncEvent
  | processPops : SyncEvent
  | processSends : SyncEvent
  | processPuts : SyncEvent
  | clearPutArena : SyncEvent
  | processPushes : SyncEvent
deriving DecidableEq

/-- Body of `BSP::Sync` as the per-process sequence of its statements:
`SyncPoint(); tag adoption; ProcessGetRequests; SyncPoint(); ProcessPopRequests;
ProcessSendRequests; ProcessPutRequests; SyncPoint(); mPutBufferStacks[pid].Clear();
ProcessPushRequests; SyncPoint()`. -/
def syncBody : List SyncEvent :=
  [SyncEvent.barrier, SyncEvent.tagUpdate, SyncEvent.processGets,
   SyncEvent.barrier, SyncEvent.processPops, SyncEvent.processSends, SyncEvent.processPuts,
   SyncEvent.barrier, SyncEvent.clearPutArena, SyncEvent.processPushes,
   SyncEvent.barrier]

/-- Number of barriers a process has passed when it executes the event at
program position `i` of `syncBody`. -/
def phaseOf (i : Nat) : Nat :=
  ((syncBody.take (i + 1)).filter fun e => decide (e = SyncEvent.barrier)).length

/-- Program position of an event in `syncBody`. -/
def idxOf (e : SyncEvent) : Nat :=
  syncBody.findIdx fun x => decide (x = e)

/-- Interpretation of the non-barrier `syncBody` events as state transformers
for process `pid`, tying the event labels to the drained operations. -/
def stepSem (e : SyncEvent) (pid : Nat) (s : BSPState) : BSPState :=
  match e with
  | SyncEvent.barrier => s
  | SyncEvent.tagUpdate => if pid = 0 then syncTagUpdate s else s
  | SyncEvent.processGets => ProcessGetRequests s pid
  | SyncEvent.processPops => ProcessPopRequests s pid
  | SyncEvent.processSends => ProcessSendRequests s pid
  | SyncEvent.processPuts => ProcessPutRequests s pid
  | SyncEvent.clearPutArena =>
    { s with putBufferStacks := fupd s.putBufferStacks pid ((s.putBufferStacks pid).Clear) }
  | SyncEvent.processPushes => ProcessPushRequests s pid

/-- A schedule `time p i` (the instant at which process `p` executes program
position `i`) respects program order when it is increasing along each
process's own `syncBody`. -/
def ProgramOrdered (P : Nat) (time : Nat → Nat → Nat) : Prop :=
  ∀ p < P, ∀ j < syncBody.length, ∀ i < j, time p i < time p j

/-- Barrier semantics (spec §4.2): no process passes a `SyncPoint` before every
process has reached it, so an event separated from another by a barrier
happens strictly earlier on every pair of processes. -/
def BarrierOrdered (P : Nat) (time : Nat → Nat → Nat) : Prop :=
  ∀ p < P, ∀ q < P, ∀ i < syncBody.length, ∀ j < syncBody.length,
    phaseOf i < phaseOf j → time p i < time q j

/-! ### Concrete states used by the witnesses and counterexamples -/

/-- Two-process state for the C1 witness: process 0 has staged the bytes 170
then 187 and issued two overlapping one-byte Puts at address 100 on process 1. -/
def c1State : BSPState :=
  { emptyState 2 with
    putBufferStacks := fun p => if p = 0 then ⟨[170, 187]⟩ else ⟨[]⟩
    putRequests := fun o t => if o = 0 ∧ t = 1 then [⟨0, 100, 1⟩, ⟨1, 100, 1⟩] else [] }

/-- Two-process state for the C2 witness: both owners have staged Sends for
process 0. -/
def c2State : BSPState :=
  { emptyState 2 with
    tmpSendRequests := fun o t =>
      if o = 0 ∧ t = 0 then [⟨0, 1, 1, 1⟩]
      else if o = 1 ∧ t = 0 then [⟨0, 2, 2, 0⟩] else []
    tmpSendBuffers := fun o t =>
      if o = 0 ∧ t = 0 then ⟨[10, 99]⟩
      else if o = 1 ∧ t = 0 then ⟨[5, 6]⟩ else ⟨[]⟩ }

/-- Two-process state for the C4 counterexample: process 0 has one outbound
Send staged for process 1 and an empty delivered queue. -/
def c4State : BSPState :=
  { emptyState 2 with
    tmpSendRequests := fun o t => if o = 0 ∧ t = 1 then [⟨0, 5, 5, 0⟩] else []
    tmpSendBuffers := fun o t => if o = 0 ∧ t = 1 then ⟨[1, 2, 3, 4, 5]⟩ else ⟨[]⟩ }

/-- One-process state for the C5 counterexample: one delivered send, already
consumed (`mSendReceivedIndex` has run past it). -/
def c5State : BSPState :=
  { emptyState 1 with
    sendRequests := fun p => if p = 0 then [⟨0, 3, 3, 0⟩] else []
    sendBuffers := fun p => if p = 0 then ⟨[1, 2, 3]⟩ else ⟨[]⟩
    sendReceivedIndex := fun p => if p = 0 then 1 else 0 }

/-- One-process state for the C5 witness: one delivered send, not yet
consumed. -/
def c5bState : BSPState :=
  { emptyState 1 with
    sendRequests := fun p => if p = 0 then [⟨0, 3, 3, 0⟩] else []
    sendBuffers := fun p => if p = 0 then ⟨[1, 2, 3]⟩ else ⟨[]⟩ }

/-- One-process state for the C6 witness: one unconsumed delivered send of two
payload bytes. -/
def c6State : BSPState :=
  { emptyState 1 with
    sendRequests := fun p => if p = 0 then [⟨0, 2, 2, 0⟩] else []
    sendBuffers := fun p => if p = 0 then ⟨[7, 8]⟩ else ⟨[]⟩ }

/-- One-process state for the C8 witness: addresses 5 and 6 are registered and
address 5 has a pending PopReg. -/
def c8State : BSPState :=
  { emptyState 1 with
    registers := fun p a =>
      if p = 0 ∧ a = 5 then some ⟨4, 0⟩
      else if p = 0 ∧ a = 6 then some ⟨4, 1⟩ else none
    threadRegisterLocation := fun p => if p = 0 then [5, 6] else []
    popRequests := fun p => if p = 0 then [⟨5⟩] else [] }

/-- State for the C9 counterexample: the previous run aborted without reaching
`End` (`mEnded = false`, `mAbort = true`). -/
def c9State : BSPState :=
  { emptyState 1 with ended := false, abortFlag := true }

/-- C10 trace, step 1: on a one-process run, one Send is issued and delivered
by `ProcessSendRequests`. -/
def c10AfterSync : BSPState :=
  ProcessSendRequests (Send (emptyState 1) 0 0 0 0 1) 0

/-- C10 trace, step 2: the first `Move` consumes the only delivered send. -/
def c10AfterMove : Option BSPState :=
  Move c10AfterSync 0 50 1

/-! ### Byte-level helper lemmas -/

theorem map_getD_range (bs : List Nat) :
    (List.range bs.length).map (fun i => bs.getD i 0) = bs := by
  apply List.ext_getElem
  · simp
  · intro i h1 h2
    simp only [List.getElem_map, List.getElem_range]
    simp [List.getD_eq_getElem?_getD, List.getElem?_eq_getElem h2]

theorem readBytes_writeBytes (m : Mem) (d : Nat) (bs : List Nat) :
    readBytes (writeBytes m d bs) d bs.length = bs := by
  unfold readBytes writeBytes
  have h : ∀ i ∈ List.range bs.length,
      (if d ≤ d + i ∧ d + i < d + bs.length then bs.getD (d + i - d) 0 else m (d + i))
        = bs.getD i 0 := by
    intro i hi
    rw [List.mem_range] at hi
    rw [if_pos ⟨Nat.le_add_right _ _, by omega⟩]
    congr 1
    omega
  rw [List.map_congr_left h, map_getD_range]

theorem extract_length (a : StackAllocator) (loc n : Nat) (h : loc + n ≤ a.Size) :
    (a.Extract loc n).length = n := by
  simp only [StackAllocator.Extract, List.length_take, List.length_drop]
  simp only [StackAllocator.Size] at h
  omega

/-! ### Claim C1: reverse application of overlapping Puts -/

theorem applyPutQueue_cons (arena : StackAllocator) (r : PutRequest)
    (rest : List PutRequest) (m : Mem) :
    applyPutQueue arena (r :: rest) m
      = writeBytes (applyPutQueue arena rest m) r.destination
          (arena.Extract r.bufferLocation r.size) := by
  unfold applyPutQueue
  rw [List.reverse_cons, List.foldl_append]
  rfl

theorem readBytes_applyPutQueue_head (arena : StackAllocator) (q : List PutRequest)
    (m : Mem) (d n : Nat) (hne : q ≠ [])
    (hall : ∀ r ∈ q, r.destination = d ∧ r.size = n)
    (hbound : ∀ r ∈ q, r.bufferLocation + r.size ≤ arena.Size) :
    readBytes (applyPutQueue arena q m) d n
      = arena.Extract (q.head hne).bufferLocation n := by
  cases q with
  | nil => exact absurd rfl hne
  | cons r rest =>
    rw [applyPutQueue_cons]
    obtain ⟨hd, hs⟩ := hall r (List.mem_cons_self r rest)
    have hb := hbound r (List.mem_cons_self r rest)
    have hlen : (arena.Extract r.bufferLocation r.size).length = r.size :=
      extract_length arena _ _ hb
    subst hd
    subst hs
    rw [List.head_cons]
    have hrw := readBytes_writeBytes (applyPutQueue arena rest m) r.destination
      (arena.Extract r.bufferLocation r.size)
    rw [hlen] at hrw
    exact hrw

theorem putStep_of_empty (pid : Nat) (t : BSPState) (owner : Nat)
    (h : t.putRequests owner pid = []) : putStep pid t owner = t := by
  simp [putStep, h]

theorem putStep_fold_skip (pid : Nat) (L : List Nat) (t : BSPState)
    (h : ∀ o ∈ L, t.putRequests o pid = []) :
    L.foldl (putStep pid) t = t := by
  induction L with
  | nil => rfl
  | cons o rest ih =>
    rw [List.foldl_cons, putStep_of_empty pid t o (h o (List.mem_cons_self o rest))]
    exact ih fun o' ho' => h o' (List.mem_cons_of_mem o ho')

theorem putStep_fold_single (pid owner : Nat) (L : List Nat) (hnd : L.Nodup)
    (hmem : owner ∈ L) :
    ∀ t : BSPState, (∀ o ∈ L, o ≠ owner → t.putRequests o pid = []) →
      t.putRequests owner pid ≠ [] →
      (L.foldl (putStep pid) t).mem
        = applyPutQueue (t.putBufferStacks owner) (t.putRequests owner pid) t.mem := by
  induction L with
  | nil => exact absurd hmem (List.not_mem_nil owner)
  | cons o rest ih =>
    intro t hothers hne
    rw [List.nodup_cons] at hnd
    rcases List.mem_cons.mp hmem with heq | hmem'
    · subst heq
      rw [List.foldl_cons]
      have hact : putStep pid t owner =
          { t with
            mem := applyPutQueue (t.putBufferStacks owner) (t.putRequests owner pid) t.mem
            putRequests := fupd2 t.putRequests owner pid [] } := by
        rw [putStep]
        rw [if_neg (by simpa [List.isEmpty_iff] using hne)]
      rw [hact, putStep_fold_skip]
      intro o' ho'
      have hne' : o' ≠ owner := fun hc => hnd.1 (hc ▸ ho')
      show fupd2 t.putRequests owner pid [] o' pid = []
      rw [fupd2, if_neg (by simp [hne'])]
      exact hothers o' (List.mem_cons_of_mem owner ho') hne'
    · have hneq : o ≠ owner := fun hc => hnd.1 (hc ▸ hmem')
      rw [List.foldl_cons,
        putStep_of_empty pid t o (hothers o (List.mem_cons_self o rest) hneq)]
      exact ih hnd.2 hmem' t (fun o' ho' => hothers o' (List.mem_cons_of_mem o ho')) hne

/-- C1: within one superstep, the Puts accumulated in a single
(owner, receiver) queue are applied at Sync in reverse insertion order, so
when all of them target the same destination bytes, the earliest-issued
Put's staged value is the final content of those bytes. -/
theorem processPutRequests_reverse_overlap (s : BSPState) (owner pid d n : Nat)
    (howner : owner < s.procCount)
    (hne : s.putRequests owner pid ≠ [])
    (hall : ∀ r ∈ s.putRequests owner pid, r.destination = d ∧ r.size = n)
    (hbound : ∀ r ∈ s.putRequests owner pid,
      r.bufferLocation + r.size ≤ (s.putBufferStacks owner).Size)
    (hothers : ∀ o < s.procCount, o ≠ owner → s.putRequests o pid = []) :
    (ProcessPutRequests s pid).mem
        = applyPutQueue (s.putBufferStacks owner) (s.putRequests owner pid) s.mem ∧
      readBytes (ProcessPutRequests s pid).mem d n
        = (s.putBufferStacks owner).Extract
            ((s.putRequests owner pid).head hne).bufferLocation n := by
  have hmem : (ProcessPutRequests s pid).mem
      = applyPutQueue (s.putBufferStacks owner) (s.putRequests owner pid) s.mem := by
    unfold ProcessPutRequests
    exact putStep_fold_single pid owner (List.range s.procCount) (List.nodup_range _)
      (List.mem_range.mpr howner) s
      (fun o ho => hothers o (List.mem_range.mp ho)) hne
  refine ⟨hmem, ?_⟩
  rw [hmem]
  exact readBytes_applyPutQueue_head _ _ _ _ _ hne hall hbound

theorem processPutRequests_reverse_overlap_witness :
    readBytes (ProcessPutRequests c1State 1).mem 100 1
      = (c1State.putBufferStacks 0).Extract
          ((c1State.putRequests 0 1).head (by decide)).bufferLocation 1 :=
  (processPutRequests_reverse_overlap c1State 0 1 100 1 (by decide) (by decide)
    (by decide) (by decide) (by decide)).2

/-! ### Claim C6: Move consumes the next unconsumed delivered send -/

/-- C6: when the delivered-send queue has an unconsumed entry, `Move` succeeds,
advances the consumption index by one, leaves the queue and receive arena
unchanged, and copies exactly `min(max_n, payload_size)` bytes of that entry's
payload into the caller's buffer. -/
theorem move_consumes_head (s : BSPState) (pid payload maxCopySizeIn : Nat)
    (r : SendRequest)
    (hr : (s.sendRequests pid)[s.sendReceivedIndex pid]? = some r)
    (hb : r.bufferLocation + min maxCopySizeIn r.bufferSize ≤ (s.sendBuffers pid).Size) :
    ∃ s', Move s pid payload maxCopySizeIn = some s' ∧
      s'.sendReceivedIndex pid = s.sendReceivedIndex pid + 1 ∧
      s'.sendRequests = s.sendRequests ∧
      s'.sendBuffers = s.sendBuffers ∧
      s'.mem = writeBytes s.mem payload
        ((s.sendBuffers pid).Extract r.bufferLocation (min maxCopySizeIn r.bufferSize)) ∧
      readBytes s'.mem payload (min maxCopySizeIn r.bufferSize)
        = (s.sendBuffers pid).Extract r.bufferLocation (min maxCopySizeIn r.bufferSize) ∧
      ((s.sendBuffers pid).Extract r.bufferLocation (min maxCopySizeIn r.bufferSize)).length
        = min maxCopySizeIn r.bufferSize := by
  have hne : ¬ (s.sendRequests pid).isEmpty = true := by
    rw [List.isEmpty_iff]
    intro h
    rw [h] at hr
    simp at hr
  have hmove : Move s pid payload maxCopySizeIn = some
      { s with
        sendReceivedIndex := fupd s.sendReceivedIndex pid (s.sendReceivedIndex pid + 1)
        mem := writeBytes s.mem payload
          ((s.sendBuffers pid).Extract r.bufferLocation (min maxCopySizeIn r.bufferSize)) } := by
    unfold Move
    rw [if_neg hne, hr]
  refine ⟨_, hmove, ?_, rfl, rfl, rfl, ?_, ?_⟩
  · show fupd s.sendReceivedIndex pid (s.sendReceivedIndex pid + 1) pid = _
    simp [fupd]
  · have hlen : ((s.sendBuffers pid).Extract r.bufferLocation
        (min maxCopySizeIn r.bufferSize)).length = min maxCopySizeIn r.bufferSize :=
      extract_length _ _ _ hb
    have hrw := readBytes_writeBytes s.mem payload
      ((s.sendBuffers pid).Extract r.bufferLocation (min maxCopySizeIn r.bufferSize))
    rw [hlen] at hrw
    exact hrw
  · exact extract_length _ _ _ hb

theorem move_consumes_head_witness :
    ∃ s', Move c6State 0 40 5 = some s' ∧
      s'.sendReceivedIndex 0 = c6State.sendReceivedIndex 0 + 1 ∧
      s'.sendRequests = c6State.sendRequests ∧
      s'.sendBuffers = c6State.sendBuffers ∧
      s'.mem = writeBytes c6State.mem 40
        ((c6State.sendBuffers 0).Extract 0 (min 5 2)) ∧
      readBytes s'.mem 40 (min 5 2) = (c6State.sendBuffers 0).Extract 0 (min 5 2) ∧
      ((c6State.sendBuffers 0).Extract 0 (min 5 2)).length = min 5 2 :=
  move_consumes_head c6State 0 40 5 ⟨0, 2, 2, 0⟩ (by decide) (by decide)

/-! ### Claim C10: unchecked consumption index in Move -/

/-- C10: on a one-process run in which a single Send was delivered, the first
`Move` succeeds (the delivered queue has length 1 and the consumption index
reaches 1), but a second `Move` passes the `empty()` guard — the queue is
still non-empty — and indexes `mSendRequests[pid][1]`, which is out of bounds
(undefined behaviour, modelled as `none`); on an empty delivered queue `Move`
returns with no state change. -/
theorem move_unchecked_index_out_of_bounds :
    Option.map (fun t => ((t.sendRequests 0).length, t.sendReceivedIndex 0)) c10AfterMove
        = some (1, 1) ∧
    Option.bind c10AfterMove (fun t => Move t 0 50 1) = none ∧
    Move (emptyState 1) 0 50 1 = some (emptyState 1) :=
  ⟨rfl, rfl, rfl⟩

/-! ### Claim C5: GetTag status sentinel -/

/-- C5 counterexample: with one delivered send already consumed, `GetTag` sets
status to `SIZE_MAX` although the delivered-send queue is not empty, refuting
the claimed "SIZE_MAX if and only if the queue is empty". -/
theorem getTag_sizeMax_nonempty_counterexample :
    (GetTag c5State 0).1 = SIZE_MAX ∧ c5State.sendRequests 0 ≠ [] :=
  ⟨rfl, by decide⟩

/-- C5 amended: provided every delivered payload size is below `SIZE_MAX`,
`GetTag` reports `SIZE_MAX` exactly when no unconsumed delivered send remains
(the consumption index has reached the queue length — in particular also on a
non-empty, fully consumed queue); when an unconsumed send exists it reports
that send's payload size and extracts its tag bytes. -/
theorem getTag_status_spec (s : BSPState) (pid : Nat)
    (hsz : ∀ r ∈ s.sendRequests pid, r.bufferSize < SIZE_MAX) :
    ((GetTag s pid).1 = SIZE_MAX ↔ (s.sendRequests pid).length ≤ s.sendReceivedIndex pid) ∧
    ∀ r, (s.sendRequests pid)[s.sendReceivedIndex pid]? = some r →
      GetTag s pid = (r.bufferSize,
        some ((s.sendBuffers pid).Extract r.tagLocation r.tagSize)) := by
  rcases h : (s.sendRequests pid)[s.sendReceivedIndex pid]? with _ | r
  · have hlen : (s.sendRequests pid).length ≤ s.sendReceivedIndex pid :=
      List.getElem?_eq_none_iff.mp h
    constructor
    · have : GetTag s pid = (SIZE_MAX, none) := by
        unfold GetTag
        rw [h]
      rw [this]
      exact ⟨fun _ => hlen, fun _ => rfl⟩
    · intro r hr
      exact Option.noConfusion hr
  · have hget : GetTag s pid = (r.bufferSize,
        some ((s.sendBuffers pid).Extract r.tagLocation r.tagSize)) := by
      unfold GetTag
      rw [h]
    have hlt : s.sendReceivedIndex pid < (s.sendRequests pid).length := by
      rcases List.getElem?_eq_some.mp h with ⟨hl, _⟩
      exact hl
    have hmem : r ∈ s.sendRequests pid := List.getElem?_mem h
    constructor
    · rw [hget]
      constructor
      · intro habs
        exact absurd habs (Nat.ne_of_lt (hsz r hmem))
      · intro habs
        omega
    · intro r' hr'
      rw [hget, Option.some_inj.mp hr']

theorem getTag_status_spec_witness :
    ((GetTag c5bState 0).1 = SIZE_MAX ↔
        (c5bState.sendRequests 0).length ≤ c5bState.sendReceivedIndex 0) ∧
    GetTag c5bState 0 = (3, some ((c5bState.sendBuffers 0).Extract 3 0)) :=
  ⟨(getTag_status_spec c5bState 0 (by decide)).1,
   (getTag_status_spec c5bState 0 (by decide)).2 ⟨0, 3, 3, 0⟩ (by decide)⟩

/-! ### Claim C9: Init warning condition -/

/-- C9 counterexample: after a run that aborted without reaching `End`
(`mEnded = false`, `mAbort = true`), the previous cycle did not end cleanly,
yet `Init` does not emit the warning (`!mEnded && !mAbort` is false). -/
theorem init_warning_counterexample :
    ¬ prevRunEndedCleanly c9State ∧ (Init c9State 7).2 = false := by
  refine ⟨?_, rfl⟩
  show ¬ c9State.ended = true
  decide

/-- C9 amended: `Init` records the entry function, resets the calling thread's
pid to 0 (and the tag size to 0), and emits the warning iff the previous cycle
neither completed `End` nor set the abort flag; a run that aborted without
reaching `End` does not trigger the warning. -/
theorem init_records_and_warns (s : BSPState) (e : Nat) :
    (Init s e).1.entry = some e ∧ (Init s e).1.mainPid = 0 ∧ (Init s e).1.tagSize = 0 ∧
    ((Init s e).2 = true ↔ (s.ended = false ∧ s.abortFlag = false)) := by
  refine ⟨rfl, rfl, rfl, ?_⟩
  show (!s.ended && !s.abortFlag) = true ↔ _
  cases h1 : s.ended <;> cases h2 : s.abortFlag <;> simp

/-! ### Claim C2: Send delivery order and offset correctness -/

theorem deliverOwners_nil (s : BSPState) (pid off : Nat) :
    deliverOwners s pid [] off = ([], []) := rfl

theorem deliverOwners_cons (s : BSPState) (pid owner : Nat) (rest : List Nat) (off : Nat) :
    deliverOwners s pid (owner :: rest) off =
      if (s.tmpSendRequests owner pid).isEmpty then deliverOwners s pid rest off
      else
        ((s.tmpSendRequests owner pid).map (shiftReq off) ++
            (deliverOwners s pid rest (off + (s.tmpSendBuffers owner pid).Size)).1,
          (s.tmpSendBuffers owner pid).data ++
            (deliverOwners s pid rest (off + (s.tmpSendBuffers owner pid).Size)).2) := rfl

theorem deliverOwners_cons_empty (s : BSPState) (pid owner : Nat) (rest : List Nat)
    (off : Nat) (hq : (s.tmpSendRequests owner pid).isEmpty = true) :
    deliverOwners s pid (owner :: rest) off = deliverOwners s pid rest off := by
  rw [deliverOwners_cons, if_pos hq]

theorem deliverOwners_cons_ne (s : BSPState) (pid owner : Nat) (rest : List Nat)
    (off : Nat) (hq : ¬ (s.tmpSendRequests owner pid).isEmpty = true) :
    deliverOwners s pid (owner :: rest) off =
      ((s.tmpSendRequests owner pid).map (shiftReq off) ++
          (deliverOwners s pid rest (off + (s.tmpSendBuffers owner pid).Size)).1,
        (s.tmpSendBuffers owner pid).data ++
          (deliverOwners s pid rest (off + (s.tmpSendBuffers owner pid).Size)).2) := by
  rw [deliverOwners_cons, if_neg hq]

theorem deliverOwners_congr (s1 s2 : BSPState) (pid : Nat) (L : List Nat)
    (h : ∀ o ∈ L, s1.tmpSendRequests o pid = s2.tmpSendRequests o pid ∧
                  s1.tmpSendBuffers o pid = s2.tmpSendBuffers o pid) :
    ∀ off, deliverOwners s1 pid L off = deliverOwners s2 pid L off := by
  induction L with
  | nil => intro off; rfl
  | cons o rest ih =>
    intro off
    obtain ⟨hq, hb⟩ := h o (List.mem_cons_self o rest)
    have ih' := ih fun o' ho' => h o' (List.mem_cons_of_mem o ho')
    simp only [deliverOwners_cons, hq, hb, ih']

theorem sendStep_of_empty (pid : Nat) (acc : BSPState × Nat) (owner : Nat)
    (h : acc.1.tmpSendRequests owner pid = []) : sendStep pid acc owner = acc := by
  simp [sendStep, h]

theorem sendStep_of_nonempty (pid : Nat) (t : BSPState) (off owner : Nat)
    (h : ¬ (t.tmpSendRequests owner pid).isEmpty = true) :
    sendStep pid (t, off) owner
      = (sendApply pid owner t off, off + (t.tmpSendBuffers owner pid).Size) := by
  simp only [sendStep]
  rw [if_neg h]
  rfl

theorem sendApply_tmp_eq (pid owner : Nat) (t : BSPState) (off : Nat) (o : Nat)
    (h : o ≠ owner) :
    (sendApply pid owner t off).tmpSendRequests o pid = t.tmpSendRequests o pid ∧
    (sendApply pid owner t off).tmpSendBuffers o pid = t.tmpSendBuffers o pid := by
  constructor <;> simp [sendApply, fupd2, h]

theorem sendStep_fold (pid : Nat) (L : List Nat) :
    ∀ (t : BSPState) (off : Nat), L.Nodup → off = (t.sendBuffers pid).Size →
      (L.foldl (sendStep pid) (t, off)).1.sendRequests pid
          = t.sendRequests pid ++ (deliverOwners t pid L off).1 ∧
      ((L.foldl (sendStep pid) (t, off)).1.sendBuffers pid).data
          = (t.sendBuffers pid).data ++ (deliverOwners t pid L off).2 ∧
      (L.foldl (sendStep pid) (t, off)).1.sendReceivedIndex = t.sendReceivedIndex := by
  induction L with
  | nil =>
    intro t off _ _
    exact ⟨by simp [deliverOwners_nil], by simp [deliverOwners_nil], rfl⟩
  | cons owner rest ih =>
    intro t off hnd hoff
    rw [List.nodup_cons] at hnd
    rw [List.foldl_cons]
    by_cases hq : t.tmpSendRequests owner pid = []
    · rw [sendStep_of_empty pid (t, off) owner hq,
        deliverOwners_cons_empty t pid owner rest off (List.isEmpty_iff.mpr hq)]
      exact ih t off hnd.2 hoff
    · have hq' : ¬ (t.tmpSendRequests owner pid).isEmpty = true := by
        simpa [List.isEmpty_iff] using hq
      rw [sendStep_of_nonempty pid t off owner hq']
      have hbuf : (sendApply pid owner t off).sendBuffers pid
          = (t.sendBuffers pid).Merge (t.tmpSendBuffers owner pid) := by
        simp [sendApply, fupd]
      have hoff' : off + (t.tmpSendBuffers owner pid).Size
          = ((sendApply pid owner t off).sendBuffers pid).Size := by
        rw [hbuf]
        simp only [StackAllocator.Merge, StackAllocator.Size, List.length_append] at hoff ⊢
        omega
      obtain ⟨h1, h2, h3⟩ := ih (sendApply pid owner t off)
        (off + (t.tmpSendBuffers owner pid).Size) hnd.2 hoff'
      have hcongr := deliverOwners_congr (sendApply pid owner t off) t pid rest
        (fun o ho => sendApply_tmp_eq pid owner t off o (fun hc => hnd.1 (hc ▸ ho)))
      rw [deliverOwners_cons_ne t pid owner rest off hq']
      refine ⟨?_, ?_, ?_⟩
      · rw [h1, hcongr]
        have hreq : (sendApply pid owner t off).sendRequests pid
            = t.sendRequests pid ++ (t.tmpSendRequests owner pid).map (shiftReq off) := by
          simp [sendApply, fupd]
        rw [hreq, List.append_assoc]
      · rw [h2, hcongr, hbuf]
        show (t.sendBuffers pid).data ++ (t.tmpSendBuffers owner pid).data ++ _ = _
        rw [List.append_assoc]
      · rw [h3]
        rfl

theorem extractL_shift (a b : List Nat) (i n : Nat) :
    ((a ++ b).drop (i + a.length)).take n = (b.drop i).take n := by
  rw [Nat.add_comm, List.drop_append]

theorem extractL_left (a b : List Nat) (i n : Nat) (h : i + n ≤ a.length) :
    ((a ++ b).drop i).take n = (a.drop i).take n := by
  rw [List.drop_append_of_le_length (by omega)]
  rw [List.take_append_of_le_length (by simp; omega)]

theorem deliverOwners_extract (s : BSPState) (pid : Nat) (L : List Nat) :
    ∀ (off : Nat) (pre : List Nat), off = pre.length →
      (∀ o ∈ L, ∀ r ∈ s.tmpSendRequests o pid,
        r.bufferLocation + r.bufferSize ≤ (s.tmpSendBuffers o pid).Size ∧
        r.tagLocation + r.tagSize ≤ (s.tmpSendBuffers o pid).Size) →
      ∀ r2 ∈ (deliverOwners s pid L off).1,
        ∃ o ∈ L, ∃ r ∈ s.tmpSendRequests o pid,
          r2.bufferSize = r.bufferSize ∧ r2.tagSize = r.tagSize ∧
          ((pre ++ (deliverOwners s pid L off).2).drop r2.bufferLocation).take r2.bufferSize
            = (s.tmpSendBuffers o pid).Extract r.bufferLocation r.bufferSize ∧
          ((pre ++ (deliverOwners s pid L off).2).drop r2.tagLocation).take r2.tagSize
            = (s.tmpSendBuffers o pid).Extract r.tagLocation r.tagSize := by
  induction L with
  | nil =>
    intro off pre _ _ r2 hr2
    rw [deliverOwners_nil] at hr2
    exact absurd hr2 (List.not_mem_nil r2)
  | cons owner rest ih =>
    intro off pre hoff hbound r2 hr2
    by_cases hq : (s.tmpSendRequests owner pid).isEmpty = true
    · rw [deliverOwners_cons_empty s pid owner rest off hq] at hr2 ⊢
      obtain ⟨o, ho, hrest⟩ := ih off pre hoff
        (fun o ho => hbound o (List.mem_cons_of_mem owner ho)) r2 hr2
      exact ⟨o, List.mem_cons_of_mem owner ho, hrest⟩
    · rw [deliverOwners_cons_ne s pid owner rest off hq] at hr2 ⊢
      dsimp only at hr2 ⊢
      rcases List.mem_append.mp hr2 with hl | hr
      · obtain ⟨r, hrmem, hshift⟩ := List.mem_map.mp hl
        obtain ⟨hb1, hb2⟩ := hbound owner (List.mem_cons_self owner rest) r hrmem
        refine ⟨owner, List.mem_cons_self owner rest, r, hrmem, ?_, ?_, ?_, ?_⟩
        · rw [← hshift]; rfl
        · rw [← hshift]; rfl
        · rw [← hshift]
          show ((pre ++ ((s.tmpSendBuffers owner pid).data ++ _)).drop
              (r.bufferLocation + off)).take r.bufferSize = _
          rw [hoff, extractL_shift, extractL_left _ _ _ _ hb1]
          rfl
        · rw [← hshift]
          show ((pre ++ ((s.tmpSendBuffers owner pid).data ++ _)).drop
              (r.tagLocation + off)).take r.tagSize = _
          rw [hoff, extractL_shift, extractL_left _ _ _ _ hb2]
          rfl
      · obtain ⟨o, ho, r, hrmem, h1, h2, h3, h4⟩ :=
          ih (off + (s.tmpSendBuffers owner pid).Size)
            (pre ++ (s.tmpSendBuffers owner pid).data)
            (by rw [hoff]; simp [StackAllocator.Size])
            (fun o ho => hbound o (List.mem_cons_of_mem owner ho)) r2 hr
        refine ⟨o, List.mem_cons_of_mem owner ho, r, hrmem, h1, h2, ?_, ?_⟩
        · rw [← List.append_assoc]
          exact h3
        · rw [← List.append_assoc]
          exact h4

theorem processSendRequests_delivered (s : BSPState) (pid : Nat) :
    (ProcessSendRequests s pid).sendRequests pid
        = (deliverOwners s pid (List.range s.procCount) 0).1 ∧
    ((ProcessSendRequests s pid).sendBuffers pid).data
        = (deliverOwners s pid (List.range s.procCount) 0).2 ∧
    (ProcessSendRequests s pid).sendReceivedIndex pid = 0 := by
  obtain ⟨h1, h2, h3⟩ := sendStep_fold pid (List.range s.procCount) (clearDelivered s pid) 0
    (List.nodup_range _)
    (by simp [clearDelivered, fupd, StackAllocator.Clear, StackAllocator.Size])
  have hcongr := deliverOwners_congr (clearDelivered s pid) s pid (List.range s.procCount)
    (fun o _ => ⟨rfl, rfl⟩)
  refine ⟨?_, ?_, ?_⟩
  · show ((List.range s.procCount).foldl (sendStep pid) (clearDelivered s pid, 0)).1.sendRequests pid = _
    rw [h1, hcongr]
    simp [clearDelivered, fupd]
  · show (((List.range s.procCount).foldl (sendStep pid) (clearDelivered s pid, 0)).1.sendBuffers pid).data = _
    rw [h2, hcongr]
    simp [clearDelivered, fupd, StackAllocator.Clear]
  · show ((List.range s.procCount).foldl (sendStep pid) (clearDelivered s pid, 0)).1.sendReceivedIndex pid = _
    rw [h3]
    simp [clearDelivered, fupd]

/-- C2: at Sync, the delivered-send queue of `pid` is the concatenation over
senders `owner = 0..P-1`, in that order, of each sender's staged Sends in
issuance order with their offsets shifted by the running merge base
(`deliverOwners`); the receive arena is the matching concatenation of staged
bytes, the consumption index is reset to 0, and every delivered request's
payload and tag offsets extract from the merged arena exactly the bytes the
sender staged. -/
theorem processSendRequests_order_and_offsets (s : BSPState) (pid : Nat)
    (hbound : ∀ o ∈ List.range s.procCount, ∀ r ∈ s.tmpSendRequests o pid,
      r.bufferLocation + r.bufferSize ≤ (s.tmpSendBuffers o pid).Size ∧
      r.tagLocation + r.tagSize ≤ (s.tmpSendBuffers o pid).Size) :
    (ProcessSendRequests s pid).sendRequests pid
        = (deliverOwners s pid (List.range s.procCount) 0).1 ∧
    ((ProcessSendRequests s pid).sendBuffers pid).data
        = (deliverOwners s pid (List.range s.procCount) 0).2 ∧
    (ProcessSendRequests s pid).sendReceivedIndex pid = 0 ∧
    ∀ r2 ∈ (ProcessSendRequests s pid).sendRequests pid,
      ∃ o ∈ List.range s.procCount, ∃ r ∈ s.tmpSendRequests o pid,
        r2.bufferSize = r.bufferSize ∧ r2.tagSize = r.tagSize ∧
        ((ProcessSendRequests s pid).sendBuffers pid).Extract r2.bufferLocation r2.bufferSize
          = (s.tmpSendBuffers o pid).Extract r.bufferLocation r.bufferSize ∧
        ((ProcessSendRequests s pid).sendBuffers pid).Extract r2.tagLocation r2.tagSize
          = (s.tmpSendBuffers o pid).Extract r.tagLocation r.tagSize := by
  obtain ⟨h1, h2, h3⟩ := processSendRequests_delivered s pid
  refine ⟨h1, h2, h3, ?_⟩
  intro r2 hr2
  rw [h1] at hr2
  obtain ⟨o, ho, r, hrmem, e1, e2, e3, e4⟩ :=
    deliverOwners_extract s pid (List.range s.procCount) 0 [] rfl hbound r2 hr2
  refine ⟨o, ho, r, hrmem, e1, e2, ?_, ?_⟩
  · show (((ProcessSendRequests s pid).sendBuffers pid).data.drop r2.bufferLocation).take
        r2.bufferSize = _
    rw [h2]
    simpa using e3
  · show (((ProcessSendRequests s pid).sendBuffers pid).data.drop r2.tagLocation).take
        r2.tagSize = _
    rw [h2]
    simpa using e4

theorem processSendRequests_order_and_offsets_witness :
    (ProcessSendRequests c2State 0).sendRequests 0
        = (deliverOwners c2State 0 (List.range 2) 0).1 ∧
    ((ProcessSendRequests c2State 0).sendBuffers 0).data
        = (deliverOwners c2State 0 (List.range 2) 0).2 ∧
    (ProcessSendRequests c2State 0).sendReceivedIndex 0 = 0 :=
  ⟨(processSendRequests_order_and_offsets c2State 0 (by decide)).1,
   (processSendRequests_order_and_offsets c2State 0 (by decide)).2.1,
   (processSendRequests_order_and_offsets c2State 0 (by decide)).2.2.1⟩

/-! ### Claim C4: what QSize counts -/

/-- C4 counterexample: with one outbound Send staged (5 payload bytes) and an
empty delivered queue, `QSize` reports `(0, 0)` although the outbound-Send
queue holds one message of 5 bytes: `QSize` reads `mSendRequests[pid]`, the
delivered (inbound) queue, not the outbound staging queues. -/
theorem qsize_not_outbound_counterexample :
    QSize c4State 0 = (0, 0) ∧ outboundSendCount c4State 0 = 1 ∧
      outboundSendBytes c4State 0 = 5 ∧
      (QSize c4State 0).1 ≠ outboundSendCount c4State 0 :=
  ⟨rfl, rfl, rfl, by decide⟩

theorem deliverOwners_totals (s : BSPState) (pid : Nat) (L : List Nat) :
    ∀ off, (deliverOwners s pid L off).1.length
        = (L.map fun o => (s.tmpSendRequests o pid).length).sum ∧
      ((deliverOwners s pid L off).1.map SendRequest.bufferSize).sum
        = (L.map fun o => ((s.tmpSendRequests o pid).map SendRequest.bufferSize).sum).sum := by
  induction L with
  | nil => intro off; simp [deliverOwners_nil]
  | cons owner rest ih =>
    intro off
    by_cases hq : (s.tmpSendRequests owner pid).isEmpty = true
    · have hnil : s.tmpSendRequests owner pid = [] := List.isEmpty_iff.mp hq
      rw [deliverOwners_cons_empty s pid owner rest off hq]
      constructor
      · rw [(ih off).1]
        simp [hnil]
      · rw [(ih off).2]
        simp [hnil]
    · rw [deliverOwners_cons_ne s pid owner rest off hq]
      have hsizes : ((s.tmpSendRequests owner pid).map (shiftReq off)).map SendRequest.bufferSize
          = (s.tmpSendRequests owner pid).map SendRequest.bufferSize := by
        rw [List.map_map]
        exact List.map_congr_left fun r _ => rfl
      constructor
      · dsimp only
        rw [List.length_append, List.length_map, (ih _).1, List.map_cons, List.sum_cons]
      · dsimp only
        rw [List.map_append, List.sum_append, hsizes, (ih _).2, List.map_cons, List.sum_cons]

/-- C4 amended: `QSize` reports the message count and the total payload bytes
of the calling process's DELIVERED-send queue (the Sends received at the last
Sync, including any already consumed by `Move`), not of its outbound queue:
right after `ProcessSendRequests` it equals the totals over all senders
`0..P-1` of the Sends they staged for this process. -/
theorem qsize_counts_delivered (s : BSPState) (pid : Nat) :
    QSize (ProcessSendRequests s pid) pid
      = (((List.range s.procCount).map fun o => (s.tmpSendRequests o pid).length).sum,
         ((List.range s.procCount).map fun o =>
            ((s.tmpSendRequests o pid).map SendRequest.bufferSize).sum).sum) := by
  obtain ⟨h1, -, -⟩ := processSendRequests_delivered s pid
  obtain ⟨t1, t2⟩ := deliverOwners_totals s pid (List.range s.procCount) 0
  unfold QSize
  rw [h1, t1, t2]

/-! ### Claim C8: PopReg removes the map entry but keeps index_to_address -/

theorem eraseRegs_eq (l : List PopRequest) :
    ∀ (reg : Nat → Option RegisterInfo) (a : Nat),
      eraseRegs reg l a = if ∃ p ∈ l, p.popRegister = a then none else reg a := by
  induction l with
  | nil =>
    intro reg a
    simp [eraseRegs]
  | cons p rest ih =>
    intro reg a
    show eraseRegs (fun x => if x = p.popRegister then none else reg x) rest a = _
    rw [ih]
    by_cases hex : ∃ q ∈ rest, q.popRegister = a
    · rw [if_pos hex, if_pos ⟨hex.choose, List.mem_cons_of_mem p hex.choose_spec.1,
        hex.choose_spec.2⟩]
    · rw [if_neg hex]
      by_cases hp : a = p.popRegister
      · rw [if_pos hp, if_pos ⟨p, List.mem_cons_self p rest, hp.symm⟩]
      · rw [if_neg hp, if_neg]
        intro ⟨q, hq, hqa⟩
        rcases List.mem_cons.mp hq with rfl | hq'
        · exact hp hqa.symm
        · exact hex ⟨q, hq', hqa⟩

/-- C8: applying a process's pending PopReg requests removes each popped
address from that process's `mRegisters` map (`local_to_index`) and clears the
pop queue, while `mThreadRegisterLocation` (`index_to_address`) of every
process is left entirely unchanged — no compaction — so previously assigned
global indices still resolve to the historical addresses; entries for
non-popped addresses and other processes' maps are untouched. -/
theorem processPopRequests_frame (s : BSPState) (pid : Nat) :
    (ProcessPopRequests s pid).threadRegisterLocation = s.threadRegisterLocation ∧
    (∀ a, (∃ p ∈ s.popRequests pid, p.popRegister = a) →
      (ProcessPopRequests s pid).registers pid a = none) ∧
    (∀ a, (∀ p ∈ s.popRequests pid, p.popRegister ≠ a) →
      (ProcessPopRequests s pid).registers pid a = s.registers pid a) ∧
    (∀ q, q ≠ pid → (ProcessPopRequests s pid).registers q = s.registers q) ∧
    (ProcessPopRequests s pid).popRequests pid = [] := by
  by_cases hq : (s.popRequests pid).isEmpty = true
  · have hnil : s.popRequests pid = [] := List.isEmpty_iff.mp hq
    have hid : ProcessPopRequests s pid = s := by
      unfold ProcessPopRequests
      rw [if_pos hq]
    rw [hid]
    exact ⟨rfl, fun a ⟨p, hp, _⟩ => absurd hp (by rw [hnil]; exact List.not_mem_nil p),
      fun a _ => rfl, fun q _ => rfl, hnil⟩
  · have happ : ProcessPopRequests s pid =
        { s with
          registers := fupd s.registers pid (eraseRegs (s.registers pid) (s.popRequests pid))
          popRequests := fupd s.popRequests pid [] } := by
      unfold ProcessPopRequests
      rw [if_neg hq]
    rw [happ]
    refine ⟨rfl, ?_, ?_, ?_, by simp [fupd]⟩
    · intro a hex
      show fupd s.registers pid _ pid a = none
      simp only [fupd, if_pos rfl, ite_true]
      rw [eraseRegs_eq, if_pos hex]
    · intro a hnone
      show fupd s.registers pid _ pid a = s.registers pid a
      simp only [fupd, if_pos rfl, ite_true]
      rw [eraseRegs_eq, if_neg]
      intro ⟨p, hp, hpa⟩
      exact hnone p hp hpa
    · intro q hqne
      show fupd s.registers pid _ q = s.registers q
      simp [fupd, hqne]

theorem processPopRequests_frame_witness :
    (ProcessPopRequests c8State 0).threadRegisterLocation = c8State.threadRegisterLocation ∧
    (ProcessPopRequests c8State 0).registers 0 5 = none ∧
    (ProcessPopRequests c8State 0).registers 0 6 = c8State.registers 0 6 ∧
    (ProcessPopRequests c8State 0).popRequests 0 = [] :=
  ⟨(processPopRequests_frame c8State 0).1,
   (processPopRequests_frame c8State 0).2.1 5 ⟨⟨5⟩, by decide, rfl⟩,
   (processPopRequests_frame c8State 0).2.2.1 6 (by decide),
   (processPopRequests_frame c8State 0).2.2.2.2⟩

/-! ### Claim C7: SetTagsize with the current size is idempotent across Sync -/

theorem foldl_proj_const {σ β : Type} (proj : σ → Nat) (f : σ → β → σ)
    (h : ∀ t b, proj (f t b) = proj t) :
    ∀ (L : List β) (t : σ), proj (L.foldl f t) = proj t := by
  intro L
  induction L with
  | nil => intro t; rfl
  | cons b rest ih =>
    intro t
    rw [List.foldl_cons, ih, h]

theorem getStep_tagSize (pid : Nat) (t : BSPState) (o : Nat) :
    (getStep pid t o).tagSize = t.tagSize := by
  unfold getStep
  exact foldl_proj_const BSPState.tagSize (getReqStep pid o) (fun u r => rfl) _ t

theorem processGetRequests_tagSize (s : BSPState) (pid : Nat) :
    (ProcessGetRequests s pid).tagSize = s.tagSize := by
  unfold ProcessGetRequests
  exact foldl_proj_const BSPState.tagSize (getStep pid)
    (fun t o => getStep_tagSize pid t o) _ s

theorem putStep_tagSize (pid : Nat) (t : BSPState) (o : Nat) :
    (putStep pid t o).tagSize = t.tagSize := by
  by_cases h : (t.putRequests o pid).isEmpty = true
  · simp [putStep, h]
  · simp [putStep, h]

theorem processPutRequests_tagSize (s : BSPState) (pid : Nat) :
    (ProcessPutRequests s pid).tagSize = s.tagSize := by
  unfold ProcessPutRequests
  exact foldl_proj_const BSPState.tagSize (putStep pid)
    (fun t o => putStep_tagSize pid t o) _ s

theorem processPopRequests_tagSize (s : BSPState) (pid : Nat) :
    (ProcessPopRequests s pid).tagSize = s.tagSize := by
  unfold ProcessPopRequests
  split
  · rfl
  · rfl

theorem processPushRequests_tagSize (s : BSPState) (pid : Nat) :
    (ProcessPushRequests s pid).tagSize = s.tagSize := by
  unfold ProcessPushRequests
  split
  · rfl
  · exact foldl_proj_const BSPState.tagSize (pushStep pid) (fun t pr => rfl) _ s

theorem sendStep_tagSize (pid : Nat) (acc : BSPState × Nat) (o : Nat) :
    ((sendStep pid acc o).1).tagSize = acc.1.tagSize := by
  by_cases h : (acc.1.tmpSendRequests o pid).isEmpty = true
  · simp [sendStep, h]
  · simp [sendStep, h]

theorem processSendRequests_tagSize (s : BSPState) (pid : Nat) :
    (ProcessSendRequests s pid).tagSize = s.tagSize := by
  unfold ProcessSendRequests
  exact foldl_proj_const (fun acc : BSPState × Nat => acc.1.tagSize) (sendStep pid)
    (fun acc o => sendStep_tagSize pid acc o) _ (clearDelivered s pid, 0)

theorem syncPhaseA_tagSize (s : BSPState) : (syncPhaseA s).tagSize = s.tagSize := by
  unfold syncPhaseA
  exact foldl_proj_const BSPState.tagSize (fun t p => ProcessGetRequests t p)
    (fun t p => processGetRequests_tagSize t p) _ s

theorem syncPhaseB_tagSize (s : BSPState) : (syncPhaseB s).tagSize = s.tagSize := by
  unfold syncPhaseB
  exact foldl_proj_const BSPState.tagSize
    (fun t p => ProcessPutRequests (ProcessSendRequests (ProcessPopRequests t p) p) p)
    (fun t p => by
      rw [processPutRequests_tagSize, processSendRequests_tagSize,
        processPopRequests_tagSize]) _ s

theorem syncPhaseC_tagSize (s : BSPState) : (syncPhaseC s).tagSize = s.tagSize := by
  unfold syncPhaseC
  exact foldl_proj_const BSPState.tagSize
    (fun t p => ProcessPushRequests (clearArenaStep t p) p)
    (fun t p => processPushRequests_tagSize (clearArenaStep t p) p) _ s

theorem syncAll_tagSize (s : BSPState) : (SyncAll s).tagSize = (syncTagUpdate s).tagSize := by
  unfold SyncAll
  rw [syncPhaseC_tagSize, syncPhaseB_tagSize, syncPhaseA_tagSize]

/-- C7: calling `SetTagsize` with a value equal to the current `mTagSize`
returns that current value through the in/out parameter, and the next Sync
leaves `mTagSize` unchanged (pid 0's proposal equals the current size, so the
adoption branch does not fire, and no later Sync phase touches the tag size). -/
theorem setTagsize_idempotent (s : BSPState) (p v : Nat) (hv : v = s.tagSize) :
    (SetTagsize s p v).1 = s.tagSize ∧
    (SyncAll (SetTagsize s 0 v).2).tagSize = s.tagSize := by
  refine ⟨rfl, ?_⟩
  rw [syncAll_tagSize]
  show (syncTagUpdate { s with newTagSize := fupd s.newTagSize 0 v }).tagSize = s.tagSize
  have hcond : ¬ (({ s with newTagSize := fupd s.newTagSize 0 v } : BSPState).newTagSize 0
      ≠ ({ s with newTagSize := fupd s.newTagSize 0 v } : BSPState).tagSize) := by
    simp [fupd, hv]
  unfold syncTagUpdate
  rw [if_neg hcond]

theorem setTagsize_idempotent_witness :
    (SetTagsize (emptyState 2) 0 0).1 = (emptyState 2).tagSize ∧
    (SyncAll (SetTagsize (emptyState 2) 0 0).2).tagSize = (emptyState 2).tagSize :=
  setTagsize_idempotent (emptyState 2) 0 0 rfl

/-! ### Claim C3: fixed phase ordering of Sync -/

/-- C3: in every schedule of `BSP::Sync` that respects each process's program
order and the barrier rendezvous semantics, every process's Get-to-Put
conversion (phase A) happens before every process's PopReg application, Send
delivery and Put application (phase B); all of those happen before any
process clears its put arena (phase C) — so the owner's put arena is cleared
only after every receiver has extracted its Put bytes from it — and each
process applies its PushRegs only after its own clear. -/
theorem sync_phase_ordering (P : Nat) (time : Nat → Nat → Nat)
    (hprog : ProgramOrdered P time) (hbar : BarrierOrdered P time)
    (p q : Nat) (hp : p < P) (hq : q < P) :
    time p (idxOf SyncEvent.processGets) < time q (idxOf SyncEvent.processPops) ∧
    time p (idxOf SyncEvent.processGets) < time q (idxOf SyncEvent.processSends) ∧
    time p (idxOf SyncEvent.processGets) < time q (idxOf SyncEvent.processPuts) ∧
    time q (idxOf SyncEvent.processPops) < time p (idxOf SyncEvent.clearPutArena) ∧
    time q (idxOf SyncEvent.processSends) < time p (idxOf SyncEvent.clearPutArena) ∧
    time q (idxOf SyncEvent.processPuts) < time p (idxOf SyncEvent.clearPutArena) ∧
    time p (idxOf SyncEvent.clearPutArena) < time p (idxOf SyncEvent.processPushes) ∧
    time q (idxOf SyncEvent.processPuts) < time p (idxOf SyncEvent.processPushes) := by
  refine ⟨?_, ?_, ?_, ?_, ?_, ?_, ?_, ?_⟩
  · exact hbar p hp q hq _ (by decide) _ (by decide) (by decide)
  · exact hbar p hp q hq _ (by decide) _ (by decide) (by decide)
  · exact hbar p hp q hq _ (by decide) _ (by decide) (by decide)
  · exact hbar q hq p hp _ (by decide) _ (by decide) (by decide)
  · exact hbar q hq p hp _ (by decide) _ (by decide) (by decide)
  · exact hbar q hq p hp _ (by decide) _ (by decide) (by decide)
  · exact hprog p hp _ (by decide) _ (by decide)
  · exact hbar q hq p hp _ (by decide) _ (by decide) (by decide)

theorem sync_phase_ordering_witness :
    ProgramOrdered 2 (fun p i => 2 * i + p) ∧
    BarrierOrdered 2 (fun p i => 2 * i + p) ∧
    ((fun p i => 2 * i + p : Nat → Nat → Nat) 0 (idxOf SyncEvent.processGets)
        < (fun p i => 2 * i + p : Nat → Nat → Nat) 1 (idxOf SyncEvent.processPops) ∧
      (fun p i => 2 * i + p : Nat → Nat → Nat) 0 (idxOf SyncEvent.processGets)
        < (fun p i => 2 * i + p : Nat → Nat → Nat) 1 (idxOf SyncEvent.processSends) ∧
      (fun p i => 2 * i + p : Nat → Nat → Nat) 0 (idxOf SyncEvent.processGets)
        < (fun p i => 2 * i + p : Nat → Nat → Nat) 1 (idxOf SyncEvent.processPuts) ∧
      (fun p i => 2 * i + p : Nat → Nat → Nat) 1 (idxOf SyncEvent.processPops)
        < (fun p i => 2 * i + p : Nat → Nat → Nat) 0 (idxOf SyncEvent.clearPutArena) ∧
      (fun p i => 2 * i + p : Nat → Nat → Nat) 1 (idxOf SyncEvent.processSends)
        < (fun p i => 2 * i + p : Nat → Nat → Nat) 0 (idxOf SyncEvent.clearPutArena) ∧
      (fun p i => 2 * i + p : Nat → Nat → Nat) 1 (idxOf SyncEvent.processPuts)
        < (fun p i => 2 * i + p : Nat → Nat → Nat) 0 (idxOf SyncEvent.clearPutArena) ∧
      (fun p i => 2 * i + p : Nat → Nat → Nat) 0 (idxOf SyncEvent.clearPutArena)
        < (fun p i => 2 * i + p : Nat → Nat → Nat) 0 (idxOf SyncEvent.processPushes) ∧
      (fun p i => 2 * i + p : Nat → Nat → Nat) 1 (idxOf SyncEvent.processPuts)
        < (fun p i => 2 * i + p : Nat → Nat → Nat) 0 (idxOf SyncEvent.processPushes)) :=
  ⟨by unfold ProgramOrdered; decide, by unfold BarrierOrdered; decide,
   sync_phase_ordering 2 (fun p i => 2 * i + p)
     (by unfold ProgramOrdered; decide) (by unfold BarrierOrdered; decide) 0 1
     (by decide) (by decide)⟩
